import Mathlib

/-!
Verification of the review-session logic of `sort_folder.py` (the `ImageGui`
class).  File-system paths are modelled as lists of components, so that
`os.path.join a b` is list append and `os.path.split p` splits off the last
component.  Python exceptions are modelled with `Except`: a function that
raises returns `.error e`, leaving the caller with its original state, which
matches the Python code because every modelled mutation happens after the
points where the corresponding Python statement can raise.  The tkinter
display layer (widgets, image loading and resizing) has no effect on session
state and is not modelled.
-/

namespace SortFolder

/-- A file-system path as its list of components. -/
abbrev FPath := List String

/-- The Python exceptions that the modelled code can raise. -/
inductive Err where
  | indexError
  | keyError
  | fileNotFound (p : FPath)
  | sameFileError
  | attributeError
  | typeError
deriving DecidableEq, Repr

deriving instance DecidableEq for Except

/-- The file system: the set of existing directories and a map from file
paths to contents, a content being the list of lines of the file. -/
structure FS where
  dirs : List FPath
  files : List (FPath × List String)
deriving DecidableEq, Repr

/-- First-match association lookup over the file table. -/
def lookupFile : List (FPath × List String) → FPath → Option (List String)
  | [], _ => none
  | kv :: rest, p => if kv.1 = p then some kv.2 else lookupFile rest p

def FS.readFile (fs : FS) (p : FPath) : Option (List String) :=
  lookupFile fs.files p

/-- `os.path.exists` on a file path. -/
def FS.fileExists (fs : FS) (p : FPath) : Bool :=
  (fs.readFile p).isSome

/-- Whether a directory exists. -/
def FS.dirExists (fs : FS) (p : FPath) : Bool :=
  fs.dirs.contains p

/-- Drop every entry for path `p` from a file table. -/
def removeFile : List (FPath × List String) → FPath → List (FPath × List String)
  | [], _ => []
  | kv :: rest, p => if kv.1 = p then removeFile rest p else kv :: removeFile rest p

/-- Create or overwrite the file at `p` with the given lines. -/
def FS.writeFile (fs : FS) (p : FPath) (content : List String) : FS :=
  ⟨fs.dirs, (p, content) :: removeFile fs.files p⟩

/-- `shutil.copyfile src dst`: raises `SameSourceError` when source and
destination are the same existing file, `FileNotFoundError` when the source
is missing or the destination directory does not exist, and otherwise writes
the source content to the destination, silently overwriting any existing
destination file. -/
def copyfile (fs : FS) (src dst : FPath) : Except Err FS :=
  match fs.readFile src with
  | none => .error (.fileNotFound src)
  | some content =>
    if src = dst then .error .sameFileError
    else if fs.dirExists dst.dropLast then .ok (fs.writeFile dst content)
    else .error (.fileNotFound dst)

/-- `ImageGui._copy_image`: split `input_path` into directory and file name
and copy the file into the sibling subdirectory named after `label`. -/
def copyImage (fs : FS) (inputPath : FPath) (label : String) : Except Err FS :=
  copyfile fs inputPath (inputPath.dropLast ++ [label, inputPath.getLastD ""])

/-- The `out_dict` of the Python code: a dictionary from label to the list of
decided image paths, as an association list in key-insertion order. -/
abbrev Manifest := List (String × List FPath)

/-- `ImageGui._add_to_dict`: `output_dict[label].append(input_path)`; a label
that is not a key of the dictionary raises `KeyError`. -/
def addToDict (d : Manifest) (inputPath : FPath) (label : String) :
    Except Err Manifest :=
  if d.any (fun kv => kv.1 = label) then
    .ok (d.map (fun kv => if kv.1 = label then (kv.1, kv.2 ++ [inputPath]) else kv))
  else .error .keyError

/-- The session state of `ImageGui`: the current index, the ordered image
paths, the configured labels, `out_dict` (`none` models the Python value
`False` of relocate mode) and `out_file` (`none` models `False`). -/
structure GuiState where
  index : Nat
  paths : List FPath
  labels : List String
  outDict : Option Manifest
  outFile : Option FPath
deriving DecidableEq, Repr

/-- Python truthiness of `self.out_dict`: `False` and the empty dictionary
are falsy. -/
def truthyDict : Option Manifest → Bool
  | none => false
  | some d => !d.isEmpty

/-- The body of the `for kk in self.out_dict.keys()` loop of `save`: for each
key, open `os.path.join(out_file, kk + ".txt")` for writing (this raises
`FileNotFoundError` when the directory `out_file` is missing, and `TypeError`
when `out_file` is `False`) and write one line per recorded path, each line
the base file name of the path. -/
def saveGo (outFile : Option FPath) : FS → Manifest → Except Err FS
  | fs, [] => .ok fs
  | fs, kv :: rest =>
    match outFile with
    | none => .error .typeError
    | some pf =>
      if fs.dirExists pf then
        saveGo outFile
          (fs.writeFile (pf ++ [kv.1 ++ ".txt"]) (kv.2.map (fun q => q.getLastD "")))
          rest
      else .error (.fileNotFound (pf ++ [kv.1 ++ ".txt"]))

/-- `ImageGui.save`: iterates over `self.out_dict.keys()`, which raises
`AttributeError` when `out_dict` is `False` (relocate mode). -/
def save (s : GuiState) (fs : FS) : Except Err FS :=
  match s.outDict with
  | none => .error .attributeError
  | some d => saveGo s.outFile fs d

/-- `ImageGui.show_next_image`: increment the index; when the new index is
still in range, display the next image (the display itself is presentation
layer and leaves session state alone); otherwise, when `out_file` is set,
save the manifests, and quit. -/
def showNextImage (s : GuiState) (fs : FS) : Except Err (GuiState × FS) :=
  if s.index + 1 < s.paths.length then .ok ({ s with index := s.index + 1 }, fs)
  else
    match s.outFile with
    | some _ =>
      match save { s with index := s.index + 1 } fs with
      | .error e => .error e
      | .ok fs2 => .ok ({ s with index := s.index + 1 }, fs2)
    | none => .ok ({ s with index := s.index + 1 }, fs)

/-- `ImageGui.vote`: read `self.paths[self.index]` (raising `IndexError` when
the session is already complete), perform the persistence side effect for the
truthy or falsy `out_dict`, and only then advance to the next image. -/
def vote (s : GuiState) (fs : FS) (label : String) : Except Err (GuiState × FS) :=
  match s.paths[s.index]? with
  | none => .error .indexError
  | some inputPath =>
    if truthyDict s.outDict then
      match addToDict (s.outDict.getD []) inputPath label with
      | .error e => .error e
      | .ok d2 => showNextImage { s with outDict := some d2 } fs
    else
      match copyImage fs inputPath label with
      | .error e => .error e
      | .ok fs2 => showNextImage s fs2

/-- `ImageGui.vote_key` for a digit key `k ≥ 1`: vote for `labels[k-1]`. -/
def voteKey (s : GuiState) (fs : FS) (k : Nat) : Except Err (GuiState × FS) :=
  match s.labels[k-1]? with
  | none => .error .indexError
  | some label => vote s fs label

/-- The key dispatch: `__init__` binds only the digit keys `1..n_labels` to
`vote_key`, so pressing a digit outside that range triggers no handler and
leaves the session and the file system unchanged. -/
def pressKey (s : GuiState) (fs : FS) (k : Nat) : Except Err (GuiState × FS) :=
  if 1 ≤ k ∧ k ≤ s.labels.length then voteKey s fs k
  else .ok (s, fs)

/-- The `for lab in temp` loop of `_restart_from_file`, with accumulator
`tot`: open each file (raising `FileNotFoundError` when it is missing) and
add its line count. -/
def restartGo (fs : FS) : Nat → List FPath → Except Err Nat
  | tot, [] => .ok tot
  | tot, lab :: rest =>
    match fs.readFile lab with
    | none => .error (.fileNotFound lab)
    | some lines => restartGo fs (tot + lines.length) rest

/-- `ImageGui._restart_from_file`: sum the line counts of
`join ptf (item + ".txt")` over the labels.  (The Python body reads the
module-level global `labels` instead of its parameter `labs`; at its only
call site the two are the same list, which is what is modelled here.) -/
def restartFromFile (labels : List String) (ptf : FPath) (fs : FS) :
    Except Err Nat :=
  restartGo fs 0 (labels.map (fun item => ptf ++ [item ++ ".txt"]))

/-- The starting-index computation of `ImageGui.__init__`: the index is 0,
except that when `out_file` is truthy and the file
`join out_file (labels[0] + ".txt")` exists it is recomputed by
`_restart_from_file` (with `labels[0]` raising `IndexError` on an empty
label list). -/
def startIndex (labels : List String) (outFile : Option FPath) (fs : FS) :
    Except Err Nat :=
  match outFile with
  | none => .ok 0
  | some pf =>
    match labels.head? with
    | none => .error .indexError
    | some l0 =>
      if fs.fileExists (pf ++ [l0 ++ ".txt"]) then restartFromFile labels pf fs
      else .ok 0

/-- The session-state part of `ImageGui.__init__`: compute the starting
index, then `set_image(paths[self.index])` raises `IndexError` unless that
index is within the path list (image loading itself is presentation layer
and leaves session state alone). -/
def initGui (labels : List String) (paths : List FPath)
    (outDict : Option Manifest) (outFile : Option FPath) (fs : FS) :
    Except Err GuiState :=
  match startIndex labels outFile fs with
  | .error e => .error e
  | .ok idx =>
    if idx < paths.length then
      .ok { index := idx, paths := paths, labels := labels,
            outDict := outDict, outFile := outFile }
    else .error .indexError

/-- A sequence of decisions, each recorded through `vote`; the first failure
aborts the run with that error. -/
def voteSeq (s : GuiState) (fs : FS) : List String → Except Err (GuiState × FS)
  | [] => .ok (s, fs)
  | l :: rest =>
    match vote s fs l with
    | .error e => .error e
    | .ok (s2, fs2) => voteSeq s2 fs2 rest

/-- `is_complete()` of the specification: the completion condition
`index == n_paths`, the negation of the `index < n_paths` test of
`show_next_image`. -/
def isComplete (s : GuiState) : Bool := s.index = s.paths.length

/-- The pure result of a successful `save` run: fold the manifest over
`writeFile`. -/
def saveResult (pf : FPath) (fs : FS) (d : Manifest) : FS :=
  d.foldl
    (fun acc kv =>
      acc.writeFile (pf ++ [kv.1 ++ ".txt"]) (kv.2.map (fun q => q.getLastD "")))
    fs

/-- A concrete fresh manifest-mode session over two images. -/
def c1s : GuiState :=
  { index := 0, paths := [["a.jpg"], ["b.jpg"]], labels := ["cat"],
    outDict := some [("cat", [])], outFile := some ["out"] }

def c1fs : FS := ⟨[["out"]], []⟩

/-- The session state after two recorded decisions on `c1s`. -/
def c1s2 : GuiState :=
  { index := 2, paths := [["a.jpg"], ["b.jpg"]], labels := ["cat"],
    outDict := some [("cat", [["a.jpg"], ["b.jpg"]])], outFile := some ["out"] }

/-- The file system after the run on `c1s`, including the final save. -/
def c1fs2 : FS := ⟨[["out"]], [(["out", "cat.txt"], ["a.jpg", "b.jpg"])]⟩

/-- A concrete relocate-mode session whose label subdirectory is missing. -/
def c2s : GuiState :=
  { index := 0, paths := [["dir", "a.jpg"]], labels := ["cat"],
    outDict := none, outFile := none }

def c2fs : FS := ⟨[], [(["dir", "a.jpg"], ["x"])]⟩

/-- A concrete relocate-mode session and file system for invariant checks. -/
def c7s : GuiState :=
  { index := 0, paths := [["d", "a.jpg"]], labels := ["cat"],
    outDict := none, outFile := none }

def c7fs : FS := ⟨[["d", "cat"]], [(["d", "a.jpg"], ["x"])]⟩

/-- The state after the single decision on `c7s`. -/
def c7s2 : GuiState :=
  { index := 1, paths := [["d", "a.jpg"]], labels := ["cat"],
    outDict := none, outFile := none }

def c7fs2 : FS :=
  ⟨[["d", "cat"]], [(["d", "cat", "a.jpg"], ["x"]), (["d", "a.jpg"], ["x"])]⟩

/-- A completed session over the same single-image list. -/
def c7done : GuiState :=
  { index := 1, paths := [["d", "a.jpg"]], labels := ["cat"],
    outDict := none, outFile := none }

/-- The state produced by a fresh `initGui` over one image, no resume. -/
def c7s0 : GuiState :=
  { index := 0, paths := [["a.jpg"]], labels := ["cat"],
    outDict := none, outFile := none }

def c7fs0 : FS := ⟨[], []⟩

/-- A concrete two-label manifest-mode session for key-dispatch checks. -/
def c8s : GuiState :=
  { index := 0, paths := [["a.jpg"]], labels := ["cat", "dog"],
    outDict := some [("cat", []), ("dog", [])], outFile := some ["out"] }

def c8fs : FS := ⟨[["out"]], []⟩

/-- A concrete relocate-mode session whose destination file already exists. -/
def c3s : GuiState :=
  { index := 0, paths := [["dir", "a.jpg"]], labels := ["cat"],
    outDict := none, outFile := none }

def c3fs : FS :=
  ⟨[["dir", "cat"]], [(["dir", "a.jpg"], ["x"]), (["dir", "cat", "a.jpg"], ["y"])]⟩

/-- The state after the decision on `c3s`: the index advanced. -/
def c3s2 : GuiState :=
  { index := 1, paths := [["dir", "a.jpg"]], labels := ["cat"],
    outDict := none, outFile := none }

/-- The file system after the decision on `c3s`: the existing destination
was silently overwritten with the source content. -/
def c3fs2 : FS :=
  ⟨[["dir", "cat"]], [(["dir", "cat", "a.jpg"], ["x"]), (["dir", "a.jpg"], ["x"])]⟩

/-- A relocate-mode session with one configured label `cat`, over a file
system that happens to contain a directory named `stray`. -/
def c9s : GuiState :=
  { index := 0, paths := [["dir", "a.jpg"]], labels := ["cat"],
    outDict := none, outFile := none }

def c9fs : FS := ⟨[["dir", "stray"]], [(["dir", "a.jpg"], ["x"])]⟩

def c9s2 : GuiState :=
  { index := 1, paths := [["dir", "a.jpg"]], labels := ["cat"],
    outDict := none, outFile := none }

def c9fs2 : FS :=
  ⟨[["dir", "stray"]],
   [(["dir", "stray", "a.jpg"], ["x"]), (["dir", "a.jpg"], ["x"])]⟩

/-- A manifest-mode session with one configured label `cat`. -/
def c9as : GuiState :=
  { index := 0, paths := [["a.jpg"]], labels := ["cat"],
    outDict := some [("cat", [])], outFile := some ["out"] }

def c9afs : FS := ⟨[["out"]], []⟩

/-- A relocate-mode session where only the `cat` label directory exists. -/
def c9bs : GuiState :=
  { index := 0, paths := [["dir", "a.jpg"]], labels := ["cat"],
    outDict := none, outFile := none }

def c9bfs : FS := ⟨[["dir", "cat"]], [(["dir", "a.jpg"], ["x"])]⟩

/-- A manifest directory whose `cat.txt` has 1 line and `dog.txt` 2 lines. -/
def c4fs : FS :=
  ⟨[["out"]], [(["out", "cat.txt"], ["a"]), (["out", "dog.txt"], ["b", "c"])]⟩

/-- A manifest directory where `cat.txt` exists but `dog.txt` is missing. -/
def c5afs : FS := ⟨[["out"]], [(["out", "cat.txt"], ["a.jpg"])]⟩

/-- A manifest directory where the file of the first label, `cat.txt`, is
missing while `dog.txt` exists. -/
def c5bfs : FS := ⟨[["out"]], [(["out", "dog.txt"], ["b"])]⟩

/-- A manifest-mode session with two decisions recorded for `cat`. -/
def c6d : Manifest := [("cat", [["r", "a.jpg"], ["r", "c.jpg"]])]

def c6s : GuiState :=
  { index := 0, paths := [["a.jpg"]], labels := ["cat"],
    outDict := some c6d, outFile := some ["out"] }

def c6fs : FS := ⟨[["out"]], []⟩

/-- A manifest directory with a one-line `cat.txt`, for resume checks. -/
def c10fs : FS := ⟨[["out"]], [(["out", "cat.txt"], ["x"])]⟩

/-- The state produced by a fresh one-image `initGui` with no resume. -/
def c10s0 : GuiState :=
  { index := 0, paths := [["a.jpg"]], labels := ["cat"],
    outDict := none, outFile := none }

theorem lookupFile_removeFile_ne (l : List (FPath × List String)) (p q : FPath)
    (h : q ≠ p) :
    lookupFile (removeFile l p) q = lookupFile l q := by
  induction l with
  | nil => rfl
  | cons a rest ih =>
    by_cases ha : a.1 = p
    · have haq : ¬ (a.1 = q) := by rw [ha]; exact fun hq => h hq.symm
      have hpq : ¬ (p = q) := fun e => h e.symm
      simp [removeFile, ha, lookupFile, haq, hpq, ih]
    · simp [removeFile, ha, lookupFile, ih]

theorem FS.readFile_writeFile_self (fs : FS) (p : FPath) (c : List String) :
    (fs.writeFile p c).readFile p = some c := by
  simp [FS.readFile, FS.writeFile, lookupFile]

theorem FS.readFile_writeFile_ne (fs : FS) (p q : FPath) (c : List String)
    (h : q ≠ p) : (fs.writeFile p c).readFile q = fs.readFile q := by
  have hpq : ¬ (p = q) := fun e => h e.symm
  simp [FS.readFile, FS.writeFile, lookupFile, hpq,
    lookupFile_removeFile_ne _ _ _ h]

theorem FS.dirs_writeFile (fs : FS) (p : FPath) (c : List String) :
    (fs.writeFile p c).dirs = fs.dirs := rfl

theorem showNextImage_ok_state (s : GuiState) (fs : FS) (s2 : GuiState) (fs2 : FS)
    (h : showNextImage s fs = .ok (s2, fs2)) :
    s2 = { s with index := s.index + 1 } := by
  unfold showNextImage at h
  split at h
  · simp only [Except.ok.injEq, Prod.mk.injEq] at h
    exact h.1.symm
  · split at h
    · split at h
      · exact Except.noConfusion h
      · simp only [Except.ok.injEq, Prod.mk.injEq] at h
        exact h.1.symm
    · simp only [Except.ok.injEq, Prod.mk.injEq] at h
      exact h.1.symm

theorem vote_ok_state (s : GuiState) (fs : FS) (label : String) (s2 : GuiState)
    (fs2 : FS) (h : vote s fs label = .ok (s2, fs2)) :
    s2.index = s.index + 1 ∧ s2.paths = s.paths ∧ s.index < s.paths.length := by
  unfold vote at h
  split at h
  · exact Except.noConfusion h
  · rename_i p hidx
    have hlt : s.index < s.paths.length := (List.getElem?_eq_some.mp hidx).1
    split at h
    · split at h
      · exact Except.noConfusion h
      · have hst := showNextImage_ok_state _ _ _ _ h
        rw [hst]
        exact ⟨rfl, rfl, hlt⟩
    · split at h
      · exact Except.noConfusion h
      · have hst := showNextImage_ok_state _ _ _ _ h
        rw [hst]
        exact ⟨rfl, rfl, hlt⟩

theorem voteSeq_ok_state :
    ∀ (ds : List String) (s : GuiState) (fs : FS) (s2 : GuiState) (fs2 : FS),
      voteSeq s fs ds = .ok (s2, fs2) →
      s2.index = s.index + ds.length ∧ s2.paths = s.paths := by
  intro ds
  induction ds with
  | nil =>
    intro s fs s2 fs2 h
    unfold voteSeq at h
    simp only [Except.ok.injEq, Prod.mk.injEq] at h
    rw [← h.1]
    exact ⟨rfl, rfl⟩
  | cons l rest ih =>
    intro s fs s2 fs2 h
    unfold voteSeq at h
    cases hv : vote s fs l with
    | error e => rw [hv] at h; exact Except.noConfusion h
    | ok pr =>
      rw [hv] at h
      obtain ⟨s1, fs1⟩ := pr
      obtain ⟨h1, h2⟩ := ih s1 fs1 s2 fs2 h
      obtain ⟨hv1, hv2, _⟩ := vote_ok_state s fs l s1 fs1 hv
      constructor
      · rw [h1, hv1, List.length_cons]
        omega
      · rw [h2, hv2]

/-- Claim C1: over any session, a run of N decisions each recorded through
`vote` leaves the index at its starting value (0 for a fresh session, the
resume offset otherwise) plus N, and the session is complete exactly when
that value equals the length of the image sequence. -/
theorem voteSeq_index_and_completion (s : GuiState) (fs : FS) (ds : List String)
    (s2 : GuiState) (fs2 : FS) (h : voteSeq s fs ds = .ok (s2, fs2)) :
    s2.index = s.index + ds.length ∧
    (isComplete s2 = true ↔ s.index + ds.length = s.paths.length) := by
  obtain ⟨h1, h2⟩ := voteSeq_ok_state ds s fs s2 fs2 h
  refine ⟨h1, ?_⟩
  unfold isComplete
  rw [h1, h2]
  simp

/-- Witness for C1 at a concrete two-image manifest-mode run. -/
theorem voteSeq_index_and_completion_witness :
    c1s2.index = c1s.index + 2 ∧
    (isComplete c1s2 = true ↔ c1s.index + 2 = c1s.paths.length) :=
  voteSeq_index_and_completion c1s c1fs ["cat", "cat"] c1s2 c1fs2 (by decide)

/-- Claim C2: when the persistence side effect of a decision raises an error
(manifest append in a truthy `out_dict`, file relocation otherwise), `vote`
returns exactly that error, no successor state is produced, and in
particular the index is not incremented: the side effect runs before
`show_next_image`, so the caller keeps the unchanged session state. -/
theorem vote_side_effect_error_propagates (s : GuiState) (fs : FS)
    (label : String) (p : FPath) (e : Err) (hp : s.paths[s.index]? = some p)
    (he : (truthyDict s.outDict = true ∧
            addToDict (s.outDict.getD []) p label = .error e) ∨
          (truthyDict s.outDict = false ∧ copyImage fs p label = .error e)) :
    vote s fs label = .error e := by
  rcases he with ⟨ht, ha⟩ | ⟨ht, hc⟩
  · simp [vote, hp, ht, ha]
  · simp [vote, hp, ht, hc]

/-- Witness for C2: a relocation onto a missing label directory fails and
the failure propagates out of `vote`. -/
theorem vote_side_effect_error_propagates_witness :
    vote c2s c2fs "cat" = .error (.fileNotFound ["dir", "cat", "a.jpg"]) :=
  vote_side_effect_error_propagates c2s c2fs "cat" ["dir", "a.jpg"]
    (.fileNotFound ["dir", "cat", "a.jpg"]) (by decide)
    (Or.inr ⟨by decide, by decide⟩)

theorem initGui_ok_lt (labels : List String) (paths : List FPath)
    (od : Option Manifest) (of : Option FPath) (fs : FS) (s : GuiState)
    (h : initGui labels paths od of fs = .ok s) :
    s.index < s.paths.length ∧ s.paths = paths := by
  unfold initGui at h
  split at h
  · exact Except.noConfusion h
  · rename_i idx hstart
    split at h
    · rename_i hlt
      simp only [Except.ok.injEq] at h
      rw [← h]
      exact ⟨hlt, rfl⟩
    · exact Except.noConfusion h

/-- Claim C7: the constructor establishes `index ≤ length(paths)`; every
successful decision increments the index by exactly 1 and keeps the
invariant; and with `index = length(paths)` the session is terminal: `vote`
fails with `IndexError` before mutating anything. -/
theorem index_invariant :
    (∀ (labels : List String) (paths : List FPath) (od : Option Manifest)
        (of : Option FPath) (fs : FS) (s : GuiState),
        initGui labels paths od of fs = .ok s → s.index ≤ s.paths.length) ∧
    (∀ (s : GuiState) (fs : FS) (label : String) (s2 : GuiState) (fs2 : FS),
        vote s fs label = .ok (s2, fs2) →
        s2.index = s.index + 1 ∧ s2.index ≤ s2.paths.length) ∧
    (∀ (s : GuiState) (fs : FS) (label : String),
        s.index = s.paths.length → vote s fs label = .error .indexError) := by
  refine ⟨?_, ?_, ?_⟩
  · intro labels paths od of fs s h
    exact Nat.le_of_lt (initGui_ok_lt labels paths od of fs s h).1
  · intro s fs label s2 fs2 h
    obtain ⟨h1, h2, h3⟩ := vote_ok_state s fs label s2 fs2 h
    refine ⟨h1, ?_⟩
    rw [h1, h2]
    omega
  · intro s fs label hcomplete
    have hnone : s.paths[s.index]? = none := by
      rw [List.getElem?_eq_none_iff]
      omega
    simp [vote, hnone]

/-- Witness for C7: fresh construction, one concrete decision, and a vote on
a completed session. -/
theorem index_invariant_witness :
    c7s0.index ≤ c7s0.paths.length ∧
    (c7s2.index = c7s.index + 1 ∧ c7s2.index ≤ c7s2.paths.length) ∧
    vote c7done c7fs "cat" = .error .indexError :=
  ⟨index_invariant.1 ["cat"] [["a.jpg"]] none none c7fs0 c7s0 (by decide),
   index_invariant.2.1 c7s c7fs "cat" c7s2 c7fs2 (by decide),
   index_invariant.2.2 c7done c7fs "cat" (by decide)⟩

/-- Claim C8: for `1 ≤ k ≤ n_labels`, pressing digit key `k` records a vote
for the k-th configured label (1-indexed); any digit outside that range is
unbound, so pressing it is a no-op, returning the session and file system
unchanged with no error. -/
theorem key_dispatch (s : GuiState) (fs : FS) (k : Nat) :
    (∀ label, 1 ≤ k → s.labels[k-1]? = some label →
        pressKey s fs k = vote s fs label) ∧
    (¬ (1 ≤ k ∧ k ≤ s.labels.length) → pressKey s fs k = .ok (s, fs)) := by
  constructor
  · intro label hk hl
    have hk2 : k ≤ s.labels.length := by
      have hlen := (List.getElem?_eq_some.mp hl).1
      omega
    unfold pressKey
    rw [if_pos ⟨hk, hk2⟩]
    unfold voteKey
    rw [hl]
  · intro hout
    unfold pressKey
    rw [if_neg hout]

/-- Witness for C8: key 2 votes for the second of two labels, key 3 is a
no-op when only two labels are configured. -/
theorem key_dispatch_witness :
    pressKey c8s c8fs 2 = vote c8s c8fs "dog" ∧
    pressKey c8s c8fs 3 = .ok (c8s, c8fs) :=
  ⟨(key_dispatch c8s c8fs 2).1 "dog" (by decide) (by decide),
   (key_dispatch c8s c8fs 3).2 (by decide)⟩

theorem path_ne_dst (p : FPath) (label fn : String) :
    p ≠ p.dropLast ++ [label, fn] := by
  intro h
  have hl := congrArg List.length h
  simp [List.length_dropLast] at hl
  omega

theorem dropLast_append_two (l : List String) (a b : String) :
    (l ++ [a, b]).dropLast = l ++ [a] := by
  have h : l ++ [a, b] = (l ++ [a]) ++ [b] := by simp
  rw [h, List.dropLast_concat]

theorem FS.dirExists_writeFile (fs : FS) (p q : FPath) (c : List String) :
    (fs.writeFile p c).dirExists q = fs.dirExists q := rfl

theorem copyImage_ok (fs : FS) (p : FPath) (label : String) (c : List String)
    (hc : fs.readFile p = some c)
    (hd : fs.dirExists (p.dropLast ++ [label]) = true) :
    copyImage fs p label =
      .ok (fs.writeFile (p.dropLast ++ [label, p.getLastD ""]) c) := by
  simp only [copyImage, copyfile, hc]
  rw [if_neg (path_ne_dst p label (p.getLastD ""))]
  simp [dropLast_append_two, hd]

theorem copyImage_missing_dir (fs : FS) (p : FPath) (label : String)
    (c : List String) (hc : fs.readFile p = some c)
    (hd : fs.dirExists (p.dropLast ++ [label]) = false) :
    copyImage fs p label =
      .error (.fileNotFound (p.dropLast ++ [label, p.getLastD ""])) := by
  simp only [copyImage, copyfile, hc]
  rw [if_neg (path_ne_dst p label (p.getLastD ""))]
  simp [dropLast_append_two, hd]

theorem showNextImage_outFile_none (s : GuiState) (fs : FS)
    (hof : s.outFile = none) :
    showNextImage s fs = .ok ({ s with index := s.index + 1 }, fs) := by
  unfold showNextImage
  split
  · rfl
  · rw [hof]

theorem vote_relocate_result (s : GuiState) (fs : FS) (label : String)
    (p : FPath) (hmode : truthyDict s.outDict = false)
    (hp : s.paths[s.index]? = some p) :
    vote s fs label =
      match copyImage fs p label with
      | .error e => .error e
      | .ok fs2 => showNextImage s fs2 := by
  simp [vote, hp, hmode]

theorem vote_manifest_result (s : GuiState) (fs : FS) (label : String)
    (p : FPath) (d : Manifest) (hd : s.outDict = some d)
    (hne : d.isEmpty = false) (hp : s.paths[s.index]? = some p) :
    vote s fs label =
      match addToDict d p label with
      | .error e => .error e
      | .ok d2 => showNextImage { s with outDict := some d2 } fs := by
  simp [vote, hp, hd, truthyDict, hne]

/-- C3 counterexample: with the destination file already present, the second
identical relocation does not raise `FileSystemError`: the vote succeeds and
silently overwrites the destination. -/
theorem vote_dest_exists_succeeds :
    c3fs.fileExists ["dir", "cat", "a.jpg"] = true ∧
    vote c3s c3fs "cat" = .ok (c3s2, c3fs2) := by decide

/-- Claim C3 (amended): in relocate mode, a decision for label L on image P
writes a file with the base name of P at `dirname(P)/L/basename(P)`; a
second identical relocation attempt for the same image and label does not
fail — `shutil.copyfile` silently overwrites an existing destination — so
it succeeds again rather than raising `FileSystemError`. -/
theorem relocate_overwrites_and_second_attempt_succeeds
    (s : GuiState) (fs : FS) (label : String) (p : FPath) (c : List String)
    (hmode : truthyDict s.outDict = false) (hof : s.outFile = none)
    (hp : s.paths[s.index]? = some p)
    (hc : fs.readFile p = some c)
    (hd : fs.dirExists (p.dropLast ++ [label]) = true) :
    vote s fs label =
      .ok ({ s with index := s.index + 1 },
           fs.writeFile (p.dropLast ++ [label, p.getLastD ""]) c) ∧
    (fs.writeFile (p.dropLast ++ [label, p.getLastD ""]) c).readFile
      (p.dropLast ++ [label, p.getLastD ""]) = some c ∧
    (copyImage (fs.writeFile (p.dropLast ++ [label, p.getLastD ""]) c) p
      label).isOk = true := by
  have hcopy := copyImage_ok fs p label c hc hd
  refine ⟨?_, FS.readFile_writeFile_self _ _ _, ?_⟩
  · rw [vote_relocate_result s fs label p hmode hp, hcopy]
    exact showNextImage_outFile_none s _ hof
  · have hc2 : (fs.writeFile (p.dropLast ++ [label, p.getLastD ""]) c).readFile p
        = some c := by
      rw [FS.readFile_writeFile_ne _ _ _ _ (path_ne_dst p label (p.getLastD ""))]
      exact hc
    have hd2 : (fs.writeFile (p.dropLast ++ [label, p.getLastD ""]) c).dirExists
        (p.dropLast ++ [label]) = true := by
      rw [FS.dirExists_writeFile]
      exact hd
    rw [copyImage_ok _ p label c hc2 hd2]
    rfl

/-- Witness for the amended C3 at a concrete state: the first relocation
writes the destination and the second relocation attempt also succeeds. -/
theorem relocate_second_attempt_witness :
    vote c3s c3fs "cat" =
      .ok ({ c3s with index := c3s.index + 1 },
        c3fs.writeFile
          (["dir", "a.jpg"].dropLast ++ ["cat", ["dir", "a.jpg"].getLastD ""])
          ["x"]) ∧
    (c3fs.writeFile
        (["dir", "a.jpg"].dropLast ++ ["cat", ["dir", "a.jpg"].getLastD ""])
        ["x"]).readFile
      (["dir", "a.jpg"].dropLast ++ ["cat", ["dir", "a.jpg"].getLastD ""]) =
      some ["x"] ∧
    (copyImage
      (c3fs.writeFile
        (["dir", "a.jpg"].dropLast ++ ["cat", ["dir", "a.jpg"].getLastD ""])
        ["x"])
      ["dir", "a.jpg"] "cat").isOk = true :=
  relocate_overwrites_and_second_attempt_succeeds c3s c3fs "cat"
    ["dir", "a.jpg"] ["x"] (by decide) (by decide) (by decide) (by decide)
    (by decide)

/-- C9 counterexample: in relocate mode there is no label-membership check:
a vote for the non-configured label `stray` silently succeeds because a
directory of that name happens to exist. -/
theorem vote_nonconfigured_label_can_succeed :
    c9s.labels.contains "stray" = false ∧
    vote c9s c9fs "stray" = .ok (c9s2, c9fs2) := by decide

/-- Claim C9 (amended): a decision for a label outside the configured label
set fails with `KeyError` (the contract error) in manifest mode; in relocate
mode there is no membership check — the decision fails only with a
file-system `FileNotFoundError` when no directory named after the label
exists (and can silently succeed when one does, see the counterexample). -/
theorem vote_nonconfigured_label_errors (s : GuiState) (fs : FS)
    (label : String) (p : FPath) :
    (∀ d : Manifest, s.outDict = some d → d.isEmpty = false →
        d.any (fun kv => kv.1 = label) = false →
        s.paths[s.index]? = some p →
        vote s fs label = .error .keyError) ∧
    (∀ c : List String, truthyDict s.outDict = false →
        s.paths[s.index]? = some p →
        fs.readFile p = some c →
        fs.dirExists (p.dropLast ++ [label]) = false →
        vote s fs label =
          .error (.fileNotFound (p.dropLast ++ [label, p.getLastD ""]))) := by
  constructor
  · intro d hd hne hany hp
    rw [vote_manifest_result s fs label p d hd hne hp]
    simp [addToDict, hany]
  · intro c hmode hp hc hdir
    rw [vote_relocate_result s fs label p hmode hp,
      copyImage_missing_dir fs p label c hc hdir]

/-- Witness for the amended C9: a `dog` vote with only `cat` configured
raises `KeyError` in manifest mode and `FileNotFoundError` in relocate
mode. -/
theorem vote_nonconfigured_label_errors_witness :
    vote c9as c9afs "dog" = .error .keyError ∧
    vote c9bs c9bfs "dog" =
      .error (.fileNotFound
        (["dir", "a.jpg"].dropLast ++ ["dog", ["dir", "a.jpg"].getLastD ""])) :=
  ⟨(vote_nonconfigured_label_errors c9as c9afs "dog" ["a.jpg"]).1
      [("cat", [])] (by decide) (by decide) (by decide) (by decide),
   (vote_nonconfigured_label_errors c9bs c9bfs "dog" ["dir", "a.jpg"]).2
      ["x"] (by decide) (by decide) (by decide) (by decide)⟩

theorem restartGo_ok (fs : FS) (pf : FPath) (labels : List String)
    (ks : List (List String))
    (h : List.Forall₂
      (fun l c => fs.readFile (pf ++ [l ++ ".txt"]) = some c) labels ks) :
    ∀ t : Nat,
      restartGo fs t (labels.map (fun item => pf ++ [item ++ ".txt"])) =
        .ok (t + (ks.map List.length).sum) := by
  induction h with
  | nil => intro t; simp [restartGo]
  | cons h1 h2 ih =>
    intro t
    simp only [List.map_cons, restartGo, h1]
    rw [ih]
    simp [Nat.add_assoc]

theorem restartFromFile_ok (fs : FS) (pf : FPath) (labels : List String)
    (ks : List (List String))
    (h : List.Forall₂
      (fun l c => fs.readFile (pf ++ [l ++ ".txt"]) = some c) labels ks) :
    restartFromFile labels pf fs = .ok (ks.map List.length).sum := by
  unfold restartFromFile
  have hr := restartGo_ok fs pf labels ks h 0
  simpa using hr

/-- Claim C4: when every configured label has a manifest file in the
manifest directory, with line counts k1, ..., kn, `_restart_from_file`
returns k1 + ... + kn, and a fresh session constructed against that
directory starts at that index. -/
theorem resume_sum_and_init (labels : List String) (ks : List (List String))
    (pf : FPath) (fs : FS)
    (h : List.Forall₂
      (fun l c => fs.readFile (pf ++ [l ++ ".txt"]) = some c) labels ks) :
    restartFromFile labels pf fs = .ok (ks.map List.length).sum ∧
    (∀ (paths : List FPath) (od : Option Manifest) (l0 : String)
        (ls : List String),
      labels = l0 :: ls → (ks.map List.length).sum < paths.length →
      initGui labels paths od (some pf) fs =
        .ok { index := (ks.map List.length).sum, paths := paths,
              labels := labels, outDict := od, outFile := some pf }) := by
  have hr := restartFromFile_ok fs pf labels ks h
  refine ⟨hr, ?_⟩
  intro paths od l0 ls hlab hlt
  subst hlab
  cases h with
  | cons h1 h2 =>
    have hex : fs.fileExists (pf ++ [l0 ++ ".txt"]) = true := by
      unfold FS.fileExists
      rw [h1]
      rfl
    simp only [List.map_cons, List.sum_cons] at hlt
    simp [initGui, startIndex, List.head?_cons, hex, hr, hlt]

/-- Witness for C4: `cat.txt` with 1 line and `dog.txt` with 2 lines resume
at index 3 over a four-image list. -/
theorem resume_sum_and_init_witness :
    restartFromFile ["cat", "dog"] ["out"] c4fs = .ok 3 ∧
    initGui ["cat", "dog"] [["p1"], ["p2"], ["p3"], ["p4"]] none (some ["out"])
        c4fs =
      .ok { index := 3, paths := [["p1"], ["p2"], ["p3"], ["p4"]],
            labels := ["cat", "dog"], outDict := none,
            outFile := some ["out"] } := by
  have h := resume_sum_and_init ["cat", "dog"] [["a"], ["b", "c"]] ["out"] c4fs
    (List.Forall₂.cons (by decide)
      (List.Forall₂.cons (by decide) List.Forall₂.nil))
  exact ⟨h.1, h.2 [["p1"], ["p2"], ["p3"], ["p4"]] none "cat" ["dog"] rfl
    (by decide)⟩

/-- C5 counterexample: with `cat.txt` present and `dog.txt` missing, the
resume computation does not return the sum over the present files (1): it
raises `FileNotFoundError` for the missing file, and the fresh session
construction fails with it. -/
theorem restart_missing_file_is_fatal :
    c5afs.fileExists ["out", "cat.txt"] = true ∧
    c5afs.fileExists ["out", "dog.txt"] = false ∧
    restartFromFile ["cat", "dog"] ["out"] c5afs =
      .error (.fileNotFound ["out", "dog.txt"]) ∧
    (initGui ["cat", "dog"] [["p1"], ["p2"], ["p3"]] none (some ["out"])
      c5afs).isOk = false := by decide

theorem restartGo_missing (fs : FS) :
    ∀ (labs : List FPath) (t : Nat) (lab : FPath),
      lab ∈ labs → fs.readFile lab = none →
      (restartGo fs t labs).isOk = false := by
  intro labs
  induction labs with
  | nil => intro t lab hmem; exact absurd hmem (List.not_mem_nil lab)
  | cons a rest ih =>
    intro t lab hmem hnone
    cases hread : fs.readFile a with
    | none => simp [restartGo, hread, Except.isOk, Except.toBool]
    | some lines =>
      rcases List.mem_cons.mp hmem with rfl | hmem2
      · rw [hread] at hnone
        exact Option.noConfusion hnone
      · simp only [restartGo, hread]
        exact ih (t + lines.length) lab hmem2 hnone

/-- Claim C5 (amended): a missing manifest file is benign only when it is
the file of the FIRST label — then the existence check fails and the
session starts at index 0, ignoring every other manifest file.  When the
file of the first label exists, a missing manifest file for any configured
label makes the resume computation raise `FileNotFoundError` instead of
contributing zero. -/
theorem resume_missing_file_behavior :
    (∀ (l0 : String) (ls : List String) (paths : List FPath)
        (od : Option Manifest) (pf : FPath) (fs : FS),
        fs.fileExists (pf ++ [l0 ++ ".txt"]) = false → 0 < paths.length →
        initGui (l0 :: ls) paths od (some pf) fs =
          .ok { index := 0, paths := paths, labels := l0 :: ls,
                outDict := od, outFile := some pf }) ∧
    (∀ (labels : List String) (pf : FPath) (fs : FS) (l : String),
        l ∈ labels → fs.readFile (pf ++ [l ++ ".txt"]) = none →
        (restartFromFile labels pf fs).isOk = false) := by
  constructor
  · intro l0 ls paths od pf fs hmiss hpos
    simp [initGui, startIndex, List.head?_cons, hmiss, hpos]
  · intro labels pf fs l hmem hnone
    unfold restartFromFile
    exact restartGo_missing fs _ 0 (pf ++ [l ++ ".txt"])
      (List.mem_map_of_mem _ hmem) hnone

/-- Witness for the amended C5: a missing first file skips the resume; a
missing second file aborts the resume computation. -/
theorem resume_missing_file_behavior_witness :
    initGui ["cat", "dog"] [["p1"]] none (some ["out"]) c5bfs =
      .ok { index := 0, paths := [["p1"]], labels := ["cat", "dog"],
            outDict := none, outFile := some ["out"] } ∧
    (restartFromFile ["cat", "dog"] ["out"] c5afs).isOk = false :=
  ⟨resume_missing_file_behavior.1 "cat" ["dog"] [["p1"]] none ["out"] c5bfs
      (by decide) (by decide),
   resume_missing_file_behavior.2 ["cat", "dog"] ["out"] c5afs "dog"
      (by decide) (by decide)⟩

/-- Claim C10: constructing a session over an empty image list fails with
`IndexError` at the initial `paths[index]` access rather than starting
complete; every successfully constructed session satisfies
`index < length(paths)`; and a resume computation yielding an index at or
beyond the sequence length makes the constructor fail with `IndexError`. -/
theorem init_requires_index_in_range :
    (∀ (labels : List String) (od : Option Manifest) (fs : FS),
        initGui labels [] od none fs = .error .indexError) ∧
    (∀ (labels : List String) (od : Option Manifest) (of : Option FPath)
        (fs : FS), (initGui labels [] od of fs).isOk = false) ∧
    (∀ (labels : List String) (paths : List FPath) (od : Option Manifest)
        (of : Option FPath) (fs : FS) (s : GuiState),
        initGui labels paths od of fs = .ok s → s.index < s.paths.length) ∧
    (∀ (labels : List String) (paths : List FPath) (od : Option Manifest)
        (pf : FPath) (fs : FS) (t : Nat),
        startIndex labels (some pf) fs = .ok t → paths.length ≤ t →
        initGui labels paths od (some pf) fs = .error .indexError) := by
  refine ⟨?_, ?_, ?_, ?_⟩
  · intro labels od fs
    rfl
  · intro labels od of fs
    cases hres : initGui labels [] od of fs with
    | error e => rfl
    | ok s =>
      exfalso
      obtain ⟨hlt, hpaths⟩ := initGui_ok_lt labels [] od of fs s hres
      rw [hpaths] at hlt
      simp at hlt
  · intro labels paths od of fs s h
    exact (initGui_ok_lt labels paths od of fs s h).1
  · intro labels paths od pf fs t hstart hge
    simp only [initGui, hstart]
    rw [if_neg (Nat.not_lt.mpr hge)]

/-- Witness for C10: empty sequence fails; a fresh construction is strictly
in range; resuming at 1 over a one-image list fails. -/
theorem init_requires_index_in_range_witness :
    initGui ["cat"] [] none none c10fs = .error .indexError ∧
    (initGui ["cat"] [] none (some ["out"]) c10fs).isOk = false ∧
    c10s0.index < c10s0.paths.length ∧
    initGui ["cat"] [["a.jpg"]] none (some ["out"]) c10fs =
      .error .indexError :=
  ⟨init_requires_index_in_range.1 ["cat"] none c10fs,
   init_requires_index_in_range.2.1 ["cat"] none (some ["out"]) c10fs,
   init_requires_index_in_range.2.2.1 ["cat"] [["a.jpg"]] none none c10fs c10s0
      (by decide),
   init_requires_index_in_range.2.2.2 ["cat"] [["a.jpg"]] none ["out"] c10fs 1
      (by decide) (by decide)⟩

theorem txt_key_inj (a b : String) (h : a ++ ".txt" = b ++ ".txt") : a = b := by
  have hd := congrArg String.data h
  simp at hd
  exact String.ext hd

theorem saveResult_dirs (pf : FPath) :
    ∀ (d : Manifest) (fs : FS), (saveResult pf fs d).dirs = fs.dirs := by
  intro d
  induction d with
  | nil => intro fs; rfl
  | cons kv rest ih => intro fs; exact ih _

theorem saveGo_ok (pf : FPath) :
    ∀ (d : Manifest) (fs : FS), fs.dirExists pf = true →
      saveGo (some pf) fs d = .ok (saveResult pf fs d) := by
  intro d
  induction d with
  | nil => intro fs h; rfl
  | cons kv rest ih =>
    intro fs h
    simp only [saveGo, h, if_true]
    have h2 : (fs.writeFile (pf ++ [kv.1 ++ ".txt"])
        (kv.2.map (fun q => q.getLastD ""))).dirExists pf = true := by
      rw [FS.dirExists_writeFile]
      exact h
    exact ih _ h2

theorem saveResult_readFile_other (pf : FPath) :
    ∀ (d : Manifest) (fs : FS) (q : FPath),
      (∀ kv ∈ d, q ≠ pf ++ [kv.1 ++ ".txt"]) →
      (saveResult pf fs d).readFile q = fs.readFile q := by
  intro d
  induction d with
  | nil => intro fs q _; rfl
  | cons kv rest ih =>
    intro fs q h
    have h1 : q ≠ pf ++ [kv.1 ++ ".txt"] := h kv (List.mem_cons_self kv rest)
    have hstep := ih
      (fs.writeFile (pf ++ [kv.1 ++ ".txt"]) (kv.2.map (fun q => q.getLastD "")))
      q (fun kv2 hm => h kv2 (List.mem_cons_of_mem kv hm))
    rw [FS.readFile_writeFile_ne _ _ _ _ h1] at hstep
    exact hstep

theorem saveResult_readFile_mem (pf : FPath) :
    ∀ (d : Manifest) (fs : FS), (d.map Prod.fst).Nodup →
      ∀ kv ∈ d, (saveResult pf fs d).readFile (pf ++ [kv.1 ++ ".txt"]) =
        some (kv.2.map (fun q => q.getLastD "")) := by
  intro d
  induction d with
  | nil => intro fs _ kv hm; exact absurd hm (List.not_mem_nil kv)
  | cons a rest ih =>
    intro fs hnd kv hm
    simp only [List.map_cons, List.nodup_cons] at hnd
    obtain ⟨hna, hnd2⟩ := hnd
    rcases List.mem_cons.mp hm with rfl | hm2
    · have hother : ∀ kv2 ∈ rest,
          (pf ++ [kv.1 ++ ".txt"]) ≠ pf ++ [kv2.1 ++ ".txt"] := by
        intro kv2 hmem2 he
        apply hna
        have heq : kv.1 ++ ".txt" = kv2.1 ++ ".txt" := by
          have hsing := List.append_cancel_left he
          exact List.singleton_injective hsing
        rw [txt_key_inj kv.1 kv2.1 heq]
        exact List.mem_map_of_mem Prod.fst hmem2
      have hstep := saveResult_readFile_other pf rest
        (fs.writeFile (pf ++ [kv.1 ++ ".txt"]) (kv.2.map (fun q => q.getLastD "")))
        (pf ++ [kv.1 ++ ".txt"]) hother
      rw [FS.readFile_writeFile_self] at hstep
      exact hstep
    · exact ih _ hnd2 kv hm2

/-- Claim C6: in manifest mode, `save` writes, for every label key, the
file `out_file/<label>.txt` holding one line per decision recorded for that
label — the base file name of the decided image — in recorded order,
overwriting any existing file at that path; saving again with unchanged
manifest content produces files with the same content. -/
theorem save_writes_manifests (s : GuiState) (d : Manifest) (pf : FPath)
    (fs : FS) (hd : s.outDict = some d) (hf : s.outFile = some pf)
    (hnd : (d.map Prod.fst).Nodup) (hdir : fs.dirExists pf = true) :
    save s fs = .ok (saveResult pf fs d) ∧
    (∀ kv ∈ d, (saveResult pf fs d).readFile (pf ++ [kv.1 ++ ".txt"]) =
      some (kv.2.map (fun q => q.getLastD ""))) ∧
    save s (saveResult pf fs d) = .ok (saveResult pf (saveResult pf fs d) d) ∧
    (∀ kv ∈ d, (saveResult pf (saveResult pf fs d) d).readFile
      (pf ++ [kv.1 ++ ".txt"]) = some (kv.2.map (fun q => q.getLastD ""))) := by
  have hdir2 : (saveResult pf fs d).dirExists pf = true := by
    unfold FS.dirExists
    rw [saveResult_dirs]
    exact hdir
  refine ⟨?_, saveResult_readFile_mem pf d fs hnd, ?_,
    saveResult_readFile_mem pf d _ hnd⟩
  · simp only [save, hd, hf]
    exact saveGo_ok pf d fs hdir
  · simp only [save, hd, hf]
    exact saveGo_ok pf d _ hdir2

/-- Witness for C6 at a concrete one-label manifest with two decisions. -/
theorem save_writes_manifests_witness :
    save c6s c6fs = .ok (saveResult ["out"] c6fs c6d) ∧
    (saveResult ["out"] c6fs c6d).readFile (["out"] ++ ["cat" ++ ".txt"]) =
      some ([["r", "a.jpg"], ["r", "c.jpg"]].map (fun q => q.getLastD "")) ∧
    save c6s (saveResult ["out"] c6fs c6d) =
      .ok (saveResult ["out"] (saveResult ["out"] c6fs c6d) c6d) ∧
    (saveResult ["out"] (saveResult ["out"] c6fs c6d) c6d).readFile
      (["out"] ++ ["cat" ++ ".txt"]) =
      some ([["r", "a.jpg"], ["r", "c.jpg"]].map (fun q => q.getLastD "")) := by
  have h := save_writes_manifests c6s c6d ["out"] c6fs rfl rfl (by decide)
    (by decide)
  exact ⟨h.1, h.2.1 ("cat", [["r", "a.jpg"], ["r", "c.jpg"]]) (by decide),
    h.2.2.1, h.2.2.2 ("cat", [["r", "a.jpg"], ["r", "c.jpg"]]) (by decide)⟩

end SortFolder
